import Mathlib

/-!
OsKeyLocker: the DPAPI sealing boundary (`WindowsDPAPI.cpp`).

A shallow embedding of the two JNI entry points
`Java_com_OsKeyLocker_platform_windows_WindowsDPAPI_protect` and
`Java_com_OsKeyLocker_platform_windows_WindowsDPAPI_unprotect`.

The functions are straight-line code over three external interfaces, which are
modelled explicitly:

* the JNI array functions (`GetByteArrayElements`, `GetArrayLength`,
  `NewByteArray`, `SetByteArrayRegion`, `ReleaseByteArrayElements`), following
  the JNI specification; the two choices the specification leaves to the JVM,
  whether `GetByteArrayElements` hands out a copy and whether `NewByteArray`
  can construct an array of a given length, are parameters (`Jvm`);
* the Win32 data-protection calls `CryptProtectData` / `CryptUnprotectData`,
  as arbitrary functions from the arguments to an outcome (`Dpapi`);
* the Win32 local heap (`LocalFree`) holding the blocks the service allocates.

State is passed explicitly (`World`); undefined behaviour of the JNI or of the
local heap is a distinct result (`Ret.undefined`).
-/

namespace OsKeyLocker

/-! ## Bytes and machine integers -/

/-- One octet (the bit pattern shared by `jbyte` and `BYTE`). -/
abbrev Byte := Fin 256

/-- Conversion of a `DWORD` to `jsize` (signed 32 bit), as performed when
`dataOut.cbData` is passed to `NewByteArray` and `SetByteArrayRegion`. -/
def toJsize (d : Nat) : Int :=
  if d % 2 ^ 32 < 2 ^ 31 then ((d % 2 ^ 32 : Nat) : Int)
  else ((d % 2 ^ 32 : Nat) : Int) - 2 ^ 32

/-- Conversion of a `jsize` to `DWORD` (unsigned 32 bit), as performed by
`dataIn.cbData = dataLength`. -/
def toDWORD (n : Int) : Nat := (n % 2 ^ 32).toNat

/-! ## Java byte arrays and native memory -/

/-- A Java `byte[]`: its length is a non-negative `int`. -/
structure JByteArray where
  elems : List Byte
  bound : elems.length < 2 ^ 31
deriving DecidableEq

/-- The empty Java array. -/
def JByteArray.empty : JByteArray := ⟨[], by decide⟩

/-- Native memory seen through a `BYTE*`: the byte at each offset. -/
abbrev Mem := Nat → Byte

/-- Memory holding the given bytes from offset 0 on. -/
def memOf (l : List Byte) : Mem := fun i => l.getD i 0

/-- The first `n` bytes read through a pointer. -/
def readBytes (p : Mem) (n : Nat) : List Byte := (List.range n).map p

/-- Win32 `DATA_BLOB`: a byte count and a pointer. -/
structure DATA_BLOB where
  cbData : Nat
  pbData : Mem

/-- The bytes a blob designates. -/
def DATA_BLOB.bytes (b : DATA_BLOB) : List Byte := readBytes b.pbData b.cbData

/-! ## The OS protection service -/

/-- Arguments of `CryptProtectData` (all but the output pointer). A `NULL`
pointer argument is `none`. -/
structure ProtectArgs where
  pDataIn : DATA_BLOB
  szDataDescr : Option String
  pOptionalEntropy : Option DATA_BLOB
  pvReserved : Option Unit
  pPromptStruct : Option Unit
  dwFlags : Nat

/-- Arguments of `CryptUnprotectData` (all but the output pointers);
`wantDescr` says whether `ppszDataDescr` is non-`NULL`. -/
structure UnprotectArgs where
  pDataIn : DATA_BLOB
  wantDescr : Bool
  pOptionalEntropy : Option DATA_BLOB
  pvReserved : Option Unit
  pPromptStruct : Option Unit
  dwFlags : Nat

/-- Everything one call of the service does: the `BOOL` it returns, the blob
stored through `pDataOut` together with the local-heap handle of its block
(0 is `NULL`), the description string stored through `ppszDataDescr` with its
handle (only `CryptUnprotectData`), the thread error code, and the bytes the
service stored into the input buffer (offset to new value; `none` leaves the
byte alone). -/
structure OSOutcome where
  ok : Bool
  dataOut : DATA_BLOB
  hOut : Nat
  descr : List Char
  hDescr : Nat
  lastError : Nat
  stores : Nat → Option Byte

/-- The local-heap blocks a service call leaves to its caller: none on failure;
on success the output block and, where a description was asked for, the
description string (a `NULL` pointer is no block). -/
def OSOutcome.blocks (o : OSOutcome) (wantDescr : Bool) : List Nat :=
  if o.ok then (if wantDescr then [o.hOut, o.hDescr] else [o.hOut]).filter (fun h => h != 0)
  else []

/-- The data-protection service: any behaviour of the two calls. -/
structure Dpapi where
  cryptProtectData : ProtectArgs → OSOutcome
  cryptUnprotectData : UnprotectArgs → OSOutcome

/-! ## Observable state -/

/-- Pending Java exceptions the JNI array functions can raise. -/
inductive Throwable where
  | NegativeArraySizeException
  | OutOfMemoryError
  | ArrayIndexOutOfBoundsException
deriving DecidableEq

/-- What the JNI specification leaves to the virtual machine: whether
`GetByteArrayElements` hands out a copy of the elements (`JNI_TRUE`) or a
pointer to the array itself, and for which lengths `NewByteArray` can construct
an array (it returns `NULL` when it cannot, for lack of memory or because the
length exceeds the limit of the implementation). -/
structure Jvm where
  isCopy : Bool
  constructs : Nat → Bool

/-- Calls crossing the boundary, in program order. OS calls are logged with
their arguments by value. -/
inductive Event where
  | getByteArrayElements
  | releaseByteArrayElements (mode : Int)
  | cryptProtectData (cbData : Nat) (bytes : List Byte) (szDataDescr : Option String)
      (hasEntropy hasReserved hasPrompt : Bool) (dwFlags : Nat)
  | cryptUnprotectData (cbData : Nat) (bytes : List Byte) (wantDescr : Bool)
      (hasEntropy hasReserved hasPrompt : Bool) (dwFlags : Nat)
  | localFree (h : Nat)
deriving DecidableEq

/-- Process state outside the caller's array. -/
structure World where
  live : List Nat
  pinned : Nat
  pending : Option Throwable
  trace : List Event
deriving DecidableEq

/-- A world with nothing allocated and nothing logged. -/
def World.init : World := ⟨[], 0, none, []⟩

/-- What a native method hands back: a `jbyteArray` (`none` is `NULL`), or no
defined behaviour at all. -/
inductive Ret where
  | returned (result : Option JByteArray)
  | undefined
deriving DecidableEq

/-- Final state of one native call. -/
structure Result where
  world : World
  data : JByteArray
  ret : Ret
deriving DecidableEq

/-! ## JNI functions -/

/-- Release mode `JNI_COMMIT` of `jni.h`: copy back, keep the buffer. -/
def JNI_COMMIT : Int := 1

/-- Release mode `JNI_ABORT` of `jni.h`: free the buffer without copying back. -/
def JNI_ABORT : Int := 2

/-- JNI `GetArrayLength`. -/
def GetArrayLength (data : JByteArray) : Int := (data.elems.length : Int)

/-- JNI `GetByteArrayElements(array, NULL)`: hands out the element buffer and
records the acquisition. Whether the buffer is a copy or the array itself is
the JVM's choice and is a parameter of the callers. -/
def GetByteArrayElements (w : World) (data : JByteArray) : World × JByteArray :=
  ({ w with pinned := w.pinned + 1, trace := w.trace ++ [Event.getByteArrayElements] }, data)

/-- JNI `ReleaseByteArrayElements(array, elems, mode)`. For a copy, mode 0 and
`JNI_COMMIT` copy the buffer back and `JNI_ABORT` does not; mode 0 and
`JNI_ABORT` free the buffer. For a direct pointer the array already is the
buffer. -/
def ReleaseByteArrayElements (w : World) (isCopy : Bool) (data elems : JByteArray)
    (mode : Int) : World × JByteArray :=
  ({ w with
      pinned := if mode = JNI_COMMIT then w.pinned else w.pinned - 1,
      trace := w.trace ++ [Event.releaseByteArrayElements mode] },
   if isCopy then (if mode = JNI_ABORT then data else elems) else elems)

/-- JNI `NewByteArray(length)`: a zero-filled array; `NULL` with a pending
`NegativeArraySizeException` for a negative length; `NULL` with a pending
`OutOfMemoryError` when the JVM cannot construct an array of that length. -/
def NewByteArray (jvm : Jvm) (w : World) (length : Int) : World × Option JByteArray :=
  if h : 0 ≤ length ∧ length < 2 ^ 31 then
    if jvm.constructs length.toNat then
      (w, some ⟨List.replicate length.toNat 0, by
        rw [List.length_replicate]; omega⟩)
    else
      ({ w with pending := some .OutOfMemoryError }, none)
  else
    ({ w with pending := some .NegativeArraySizeException }, none)

/-- JNI `SetByteArrayRegion(array, start, len, buf)`. Applying it to `NULL` is
not defined (`none`). A region outside the array raises
`ArrayIndexOutOfBoundsException` and leaves the array alone. -/
def SetByteArrayRegion (w : World) (array : Option JByteArray) (start len : Int)
    (buf : Mem) : Option (World × JByteArray) :=
  match array with
  | some a =>
    if h : 0 ≤ start ∧ 0 ≤ len ∧ start + len ≤ a.elems.length then
      some (w, ⟨a.elems.take start.toNat ++ readBytes buf len.toNat
                  ++ a.elems.drop (start.toNat + len.toNat), by
        have := a.bound
        simp only [List.length_append, List.length_take, List.length_drop, readBytes,
          List.length_map, List.length_range]
        omega⟩)
    else
      some ({ w with pending := some .ArrayIndexOutOfBoundsException }, a)
  | none => none

/-! ## Win32 local heap -/

/-- Win32 `LocalFree`: `NULL` is accepted and ignored, a live block is
released, anything else is not defined (`none`). -/
def LocalFree (w : World) (h : Nat) : Option World :=
  if h = 0 then some { w with trace := w.trace ++ [Event.localFree h] }
  else if h ∈ w.live then
    some { w with live := w.live.erase h, trace := w.trace ++ [Event.localFree h] }
  else none

/-- The input buffer after the service stored into it. -/
def storeInto (stores : Nat → Option Byte) : Nat → List Byte → List Byte
  | _, [] => []
  | i, b :: bs => (stores i).getD b :: storeInto stores (i + 1) bs

/-- The element buffer after the service call. -/
def scribble (stores : Nat → Option Byte) (buf : JByteArray) : JByteArray :=
  ⟨storeInto stores 0 buf.elems, by
    have key : ∀ (l : List Byte) (i : Nat), (storeInto stores i l).length = l.length := by
      intro l
      induction l with
      | nil => intro i; rfl
      | cons b bs ih => intro i; simp [storeInto, ih]
    rw [key]; exact buf.bound⟩

/-! ## The service calls as the native code performs them -/

/-- Log entry of a `CryptProtectData` call. -/
def logProtect (a : ProtectArgs) : Event :=
  .cryptProtectData a.pDataIn.cbData a.pDataIn.bytes a.szDataDescr
    a.pOptionalEntropy.isSome a.pvReserved.isSome a.pPromptStruct.isSome a.dwFlags

/-- Log entry of a `CryptUnprotectData` call. -/
def logUnprotect (a : UnprotectArgs) : Event :=
  .cryptUnprotectData a.pDataIn.cbData a.pDataIn.bytes a.wantDescr
    a.pOptionalEntropy.isSome a.pvReserved.isSome a.pPromptStruct.isSome a.dwFlags

/-- One call of `CryptProtectData`: logged; on success the output block is on
the local heap. -/
def callCryptProtectData (os : Dpapi) (w : World) (a : ProtectArgs) : World × OSOutcome :=
  let o := os.cryptProtectData a
  ({ w with live := o.blocks false ++ w.live, trace := w.trace ++ [logProtect a] }, o)

/-- One call of `CryptUnprotectData`: logged; on success the output block and,
when asked for, the description string are on the local heap. -/
def callCryptUnprotectData (os : Dpapi) (w : World) (a : UnprotectArgs) : World × OSOutcome :=
  let o := os.cryptUnprotectData a
  ({ w with live := o.blocks a.wantDescr ++ w.live, trace := w.trace ++ [logUnprotect a] }, o)

/-- Lines 12-14 and 36-38: `dataIn` designates the element buffer. -/
def dataInOf (dataBytes : JByteArray) (dataLength : Int) : DATA_BLOB :=
  { pbData := memOf dataBytes.elems, cbData := toDWORD dataLength }

/-- Argument list of line 18:
`CryptProtectData(&dataIn, L"OsKeyLocker", NULL, NULL, NULL, 0, &dataOut)`. -/
def protectArgs (dataIn : DATA_BLOB) : ProtectArgs :=
  { pDataIn := dataIn, szDataDescr := some "OsKeyLocker", pOptionalEntropy := none,
    pvReserved := none, pPromptStruct := none, dwFlags := 0 }

/-- Argument list of line 43:
`CryptUnprotectData(&dataIn, &description, NULL, NULL, NULL, 0, &dataOut)`. -/
def unprotectArgs (dataIn : DATA_BLOB) : UnprotectArgs :=
  { pDataIn := dataIn, wantDescr := true, pOptionalEntropy := none,
    pvReserved := none, pPromptStruct := none, dwFlags := 0 }

/-! ## The two native methods -/

/-- `Java_com_OsKeyLocker_platform_windows_WindowsDPAPI_protect`
(WindowsDPAPI.cpp, lines 6-28), run against a service `os` and a virtual
machine `jvm`. -/
def Java_com_OsKeyLocker_platform_windows_WindowsDPAPI_protect
    (os : Dpapi) (jvm : Jvm) (w : World) (data : JByteArray) : Result :=
  -- jbyte* dataBytes = env->GetByteArrayElements(data, NULL);
  let (w, dataBytes) := GetByteArrayElements w data
  -- jsize dataLength = env->GetArrayLength(data);
  let dataLength := GetArrayLength data
  -- dataIn.pbData = (BYTE*)dataBytes; dataIn.cbData = dataLength;
  let dataIn := dataInOf dataBytes dataLength
  -- CryptProtectData(&dataIn, L"OsKeyLocker", NULL, NULL, NULL, 0, &dataOut)
  let (w, o) := callCryptProtectData os w (protectArgs dataIn)
  let dataBytes := scribble o.stores dataBytes
  let data := if jvm.isCopy then data else dataBytes
  let dataOut := o.dataOut
  if o.ok then
    -- jbyteArray result = env->NewByteArray(dataOut.cbData);
    let (w, result) := NewByteArray jvm w (toJsize dataOut.cbData)
    -- env->SetByteArrayRegion(result, 0, dataOut.cbData, (jbyte*)dataOut.pbData);
    match SetByteArrayRegion w result 0 (toJsize dataOut.cbData) dataOut.pbData with
    | none => ⟨w, data, .undefined⟩
    | some (w, result) =>
      -- LocalFree(dataOut.pbData);
      match LocalFree w o.hOut with
      | none => ⟨w, data, .undefined⟩
      | some w =>
        -- env->ReleaseByteArrayElements(data, dataBytes, JNI_ABORT);
        let (w, data) := ReleaseByteArrayElements w jvm.isCopy data dataBytes JNI_ABORT
        -- return result;
        ⟨w, data, .returned (some result)⟩
  else
    -- env->ReleaseByteArrayElements(data, dataBytes, JNI_ABORT);
    let (w, data) := ReleaseByteArrayElements w jvm.isCopy data dataBytes JNI_ABORT
    -- return NULL;
    ⟨w, data, .returned none⟩

/-- `Java_com_OsKeyLocker_platform_windows_WindowsDPAPI_unprotect`
(WindowsDPAPI.cpp, lines 30-54). -/
def Java_com_OsKeyLocker_platform_windows_WindowsDPAPI_unprotect
    (os : Dpapi) (jvm : Jvm) (w : World) (data : JByteArray) : Result :=
  -- jbyte* dataBytes = env->GetByteArrayElements(data, NULL);
  let (w, dataBytes) := GetByteArrayElements w data
  -- jsize dataLength = env->GetArrayLength(data);
  let dataLength := GetArrayLength data
  -- dataIn.pbData = (BYTE*)dataBytes; dataIn.cbData = dataLength;
  let dataIn := dataInOf dataBytes dataLength
  -- CryptUnprotectData(&dataIn, &description, NULL, NULL, NULL, 0, &dataOut)
  let (w, o) := callCryptUnprotectData os w (unprotectArgs dataIn)
  let dataBytes := scribble o.stores dataBytes
  let data := if jvm.isCopy then data else dataBytes
  let dataOut := o.dataOut
  if o.ok then
    -- jbyteArray result = env->NewByteArray(dataOut.cbData);
    let (w, result) := NewByteArray jvm w (toJsize dataOut.cbData)
    -- env->SetByteArrayRegion(result, 0, dataOut.cbData, (jbyte*)dataOut.pbData);
    match SetByteArrayRegion w result 0 (toJsize dataOut.cbData) dataOut.pbData with
    | none => ⟨w, data, .undefined⟩
    | some (w, result) =>
      -- LocalFree(dataOut.pbData);
      match LocalFree w o.hOut with
      | none => ⟨w, data, .undefined⟩
      | some w =>
        -- LocalFree(description);
        match LocalFree w o.hDescr with
        | none => ⟨w, data, .undefined⟩
        | some w =>
          -- env->ReleaseByteArrayElements(data, dataBytes, JNI_ABORT);
          let (w, data) := ReleaseByteArrayElements w jvm.isCopy data dataBytes JNI_ABORT
          -- return result;
          ⟨w, data, .returned (some result)⟩
  else
    -- env->ReleaseByteArrayElements(data, dataBytes, JNI_ABORT);
    let (w, data) := ReleaseByteArrayElements w jvm.isCopy data dataBytes JNI_ABORT
    -- return NULL;
    ⟨w, data, .returned none⟩

/-- Short name of the native method `protect`. -/
abbrev protect := Java_com_OsKeyLocker_platform_windows_WindowsDPAPI_protect

/-- Short name of the native method `unprotect`. -/
abbrev unprotect := Java_com_OsKeyLocker_platform_windows_WindowsDPAPI_unprotect

/-- The outcome of the service call `protect` makes on `data`. -/
def protectOutcome (os : Dpapi) (data : JByteArray) : OSOutcome :=
  os.cryptProtectData (protectArgs (dataInOf data (GetArrayLength data)))

/-- The outcome of the service call `unprotect` makes on `data`. -/
def unprotectOutcome (os : Dpapi) (data : JByteArray) : OSOutcome :=
  os.cryptUnprotectData (unprotectArgs (dataInOf data (GetArrayLength data)))

/-- The array the native code builds from an output blob of admissible size. -/
def blobArray (b : DATA_BLOB) (h : b.cbData % 2 ^ 32 < 2 ^ 31) : JByteArray :=
  ⟨readBytes b.pbData (b.cbData % 2 ^ 32), by
    simp only [readBytes, List.length_map, List.length_range]; exact h⟩

/-- The caller's array after the call: untouched when the element buffer was
a copy, otherwise whatever the service left in the buffer. -/
def dataAfter (isCopy : Bool) (o : OSOutcome) (data : JByteArray) : JByteArray :=
  if isCopy then data else scribble o.stores data

/-! ## Both methods at once -/

/-- The two native methods. -/
inductive Op where
  | protect
  | unprotect
deriving DecidableEq

/-- Run one of the native methods. -/
def run : Op → Dpapi → Jvm → World → JByteArray → Result
  | .protect => protect
  | .unprotect => unprotect

/-- The outcome of the service call a native method makes on `data`. -/
def outcomeOf : Op → Dpapi → JByteArray → OSOutcome
  | .protect => protectOutcome
  | .unprotect => unprotectOutcome

/-- Whether the method asks the service for a description string. -/
def Op.wantDescr : Op → Bool
  | .protect => false
  | .unprotect => true

/-- The log entry of the service call a native method makes on `data`. -/
def serviceCall : Op → JByteArray → Event
  | .protect, data => logProtect (protectArgs (dataInOf data (GetArrayLength data)))
  | .unprotect, data => logUnprotect (unprotectArgs (dataInOf data (GetArrayLength data)))

/-- The service outcomes on which the native code reaches a `return`: a
failure, or a success whose size is a non-negative `jsize` for which the JVM
constructs the result array. -/
abbrev Fits (jvm : Jvm) (o : OSOutcome) : Prop :=
  o.ok = false ∨
    (o.dataOut.cbData % 2 ^ 32 < 2 ^ 31 ∧ jvm.constructs (o.dataOut.cbData % 2 ^ 32) = true)

/-- The exception `NewByteArray` leaves pending when it returns `NULL` for the
size the service reported. -/
def refusal (o : OSOutcome) : Throwable :=
  if o.dataOut.cbData % 2 ^ 32 < 2 ^ 31 then .OutOfMemoryError
  else .NegativeArraySizeException

/-- The value returned on a fitting outcome: `NULL` on failure, the blob copied
into a fresh array on success. -/
def retOf (o : OSOutcome) : Option JByteArray :=
  if h : o.ok = true ∧ o.dataOut.cbData % 2 ^ 32 < 2 ^ 31 then some (blobArray o.dataOut h.2)
  else none

/-- The `LocalFree` calls made on the success path. -/
def frees (op : Op) (o : OSOutcome) : List Event :=
  if o.ok then
    (match op with
     | .protect => [Event.localFree o.hOut]
     | .unprotect => [Event.localFree o.hOut, Event.localFree o.hDescr])
  else []

/-! ## Observers of the trace -/

/-- Whether an event is a call of the protection service. -/
def Event.isServiceCall : Event → Bool
  | .cryptProtectData .. => true
  | .cryptUnprotectData .. => true
  | _ => false

/-- The calls of the protection service, in order. -/
def osCalls (t : List Event) : List Event := t.filter Event.isServiceCall

/-- The block an event hands to `LocalFree` (`LocalFree(NULL)` frees nothing). -/
def Event.freed : Event → Option Nat
  | .localFree h => if h = 0 then none else some h
  | _ => none

/-- The blocks handed to `LocalFree`, in order. -/
def freedHandles (t : List Event) : List Nat := t.filterMap Event.freed

/-- Whether an event is a `GetByteArrayElements` call. -/
def Event.isAcquire : Event → Bool
  | .getByteArrayElements => true
  | _ => false

/-- Number of `GetByteArrayElements` calls. -/
def acquisitions (t : List Event) : Nat := (t.filter Event.isAcquire).length

/-- Whether an event is a `ReleaseByteArrayElements` call that frees the
element buffer (every mode but `JNI_COMMIT`). -/
def Event.isRelease : Event → Bool
  | .releaseByteArrayElements mode => decide (mode ≠ JNI_COMMIT)
  | _ => false

/-- Number of `ReleaseByteArrayElements` calls that free the buffer. -/
def releases (t : List Event) : Nat := (t.filter Event.isRelease).length

/-! ## Sequences of calls -/

/-- One invocation of a native method, with the service and JVM behaviour it
meets. -/
structure Call where
  op : Op
  os : Dpapi
  jvm : Jvm
  data : JByteArray

/-- Run one invocation. -/
def Call.run (c : Call) (w : World) : Result :=
  OsKeyLocker.run c.op c.os c.jvm w c.data

/-- The outcome of the service call of one invocation. -/
def Call.outcome (c : Call) : OSOutcome := outcomeOf c.op c.os c.data

/-- The local-heap blocks the service allocates during one invocation. -/
def Call.blocks (c : Call) : List Nat := c.outcome.blocks c.op.wantDescr

/-- Run invocations one after the other; `none` when one of them has no
defined behaviour. -/
def runCalls : List Call → World → Option World
  | [], w => some w
  | c :: cs, w =>
    match (c.run w).ret with
    | .returned _ => runCalls cs (c.run w).world
    | .undefined => none

/-- All blocks the service allocates during a sequence of invocations. -/
def allBlocks : List Call → List Nat
  | [] => []
  | c :: cs => c.blocks ++ allBlocks cs

/-! ## Sealing followed by unsealing -/

/-- The value of `unprotect(protect(p))`: the array `unprotect` returns for the
array `protect` returned; `none` when either call returns `NULL` or has no
defined behaviour. `jvm1` is the behaviour of the virtual machine during
`protect`, `jvm2` its behaviour during `unprotect`. -/
def roundTrip (os : Dpapi) (jvm1 jvm2 : Jvm) (w : World) (p : JByteArray) :
    Option JByteArray :=
  match (protect os jvm1 w p).ret with
  | .returned (some c) =>
    (match (unprotect os jvm2 (protect os jvm1 w p).world c).ret with
     | .returned r => r
     | .undefined => none)
  | _ => none

/-- A `CryptProtectData` call with the service defaults: no entropy, nothing
reserved, no prompt structure, flags 0. -/
def ProtectArgs.isDefault (a : ProtectArgs) : Prop :=
  a.pOptionalEntropy.isSome = false ∧ a.pvReserved = none ∧ a.pPromptStruct = none ∧
    a.dwFlags = 0

/-- A `CryptUnprotectData` call with the service defaults. -/
def UnprotectArgs.isDefault (a : UnprotectArgs) : Prop :=
  a.pOptionalEntropy.isSome = false ∧ a.pvReserved = none ∧ a.pPromptStruct = none ∧
    a.dwFlags = 0

/-- In the current identity and machine context `CryptUnprotectData` inverts
`CryptProtectData` on the plaintext `p`: protecting `p` succeeds, and
unprotecting the bytes of the resulting blob succeeds and yields `p`. -/
def InvertsOn (os : Dpapi) (p : List Byte) : Prop :=
  ∀ a : ProtectArgs, a.isDefault → a.pDataIn.bytes = p →
    (os.cryptProtectData a).ok = true ∧
    ∀ u : UnprotectArgs, u.isDefault →
      u.pDataIn.bytes = (os.cryptProtectData a).dataOut.bytes →
      (os.cryptUnprotectData u).ok = true ∧ (os.cryptUnprotectData u).dataOut.bytes = p

/-! ## Concrete services and inputs -/

/-- A virtual machine that copies the elements and constructs every array. -/
def copyingJvm : Jvm := ⟨true, fun _ => true⟩

/-- A virtual machine that hands out the array itself and constructs every
array. -/
def directJvm : Jvm := ⟨false, fun _ => true⟩

/-- A virtual machine that copies the elements and constructs arrays of up to
2^31 - 3 elements only. -/
def limitedJvm : Jvm := ⟨true, fun n => decide (n ≤ 2 ^ 31 - 3)⟩

/-- A virtual machine that copies the elements and has no memory left for a
new array. -/
def exhaustedJvm : Jvm := ⟨true, fun _ => false⟩

/-- The bytes of the ASCII string hello. -/
def hello : JByteArray := ⟨[0x68, 0x65, 0x6C, 0x6C, 0x6F], by decide⟩

/-- A service whose blob is the plaintext itself. -/
def echoOS : Dpapi where
  cryptProtectData a := ⟨true, a.pDataIn, 7, [], 0, 0, fun _ => none⟩
  cryptUnprotectData a := ⟨true, a.pDataIn, 7, ['O', 's'], 9, 0, fun _ => none⟩

/-- The echo service with another description string. -/
def echoOS2 : Dpapi where
  cryptProtectData a := ⟨true, a.pDataIn, 7, [], 0, 0, fun _ => none⟩
  cryptUnprotectData a := ⟨true, a.pDataIn, 7, ['h', 'e', 'l', 'l', 'o'], 9, 0, fun _ => none⟩

/-- A service that fails every call with the given error code. -/
def failingOS (code : Nat) : Dpapi where
  cryptProtectData _ := ⟨false, ⟨0, fun _ => 0⟩, 0, [], 0, code, fun _ => none⟩
  cryptUnprotectData _ := ⟨false, ⟨0, fun _ => 0⟩, 0, [], 0, code, fun _ => none⟩

/-- A service reporting success with an output of 2^31 bytes. -/
def hugeOS : Dpapi where
  cryptProtectData _ := ⟨true, ⟨2 ^ 31, fun _ => 0⟩, 1, [], 0, 0, fun _ => none⟩
  cryptUnprotectData _ := ⟨true, ⟨2 ^ 31, fun _ => 0⟩, 1, [], 2, 0, fun _ => none⟩

/-- A service that puts a header of `k` zero bytes before the plaintext and
strips it again. -/
def headerOS (k : Nat) : Dpapi where
  cryptProtectData a :=
    ⟨true, ⟨k + a.pDataIn.cbData, fun i => if i < k then 0 else a.pDataIn.pbData (i - k)⟩,
      1, [], 0, 0, fun _ => none⟩
  cryptUnprotectData u :=
    ⟨true, ⟨u.pDataIn.cbData - k, fun i => u.pDataIn.pbData (i + k)⟩,
      1, [], 2, 0, fun _ => none⟩

/-- The header service with a header of 2^31 bytes. -/
def bigOS : Dpapi := headerOS (2 ^ 31)

/-- A service that rejects an empty input buffer (error 87) and otherwise
echoes. -/
def pickyOS : Dpapi where
  cryptProtectData a :=
    ⟨decide (a.pDataIn.cbData ≠ 0), a.pDataIn, 7, [], 0, 87, fun _ => none⟩
  cryptUnprotectData a := ⟨true, a.pDataIn, 7, [], 9, 0, fun _ => none⟩

/-- A service that fails and overwrites its input buffer with 0xFF. -/
def scribblingOS : Dpapi where
  cryptProtectData _ := ⟨false, ⟨0, fun _ => 0⟩, 0, [], 0, 5, fun _ => some 0xFF⟩
  cryptUnprotectData _ := ⟨false, ⟨0, fun _ => 0⟩, 0, [], 0, 5, fun _ => some 0xFF⟩

/-- Sealing hello and unsealing it again, with an echoing service. -/
def demoCalls : List Call :=
  [⟨.protect, echoOS, copyingJvm, hello⟩, ⟨.unprotect, echoOS, directJvm, hello⟩]

/-! # Properties -/

/-! ## Basic facts -/

theorem readBytes_length (p : Mem) (n : Nat) : (readBytes p n).length = n := by
  simp [readBytes]

theorem length_storeInto (stores : Nat → Option Byte) (l : List Byte) (i : Nat) :
    (storeInto stores i l).length = l.length := by
  induction l generalizing i with
  | nil => rfl
  | cons b bs ih => simp [storeInto, ih]

theorem toJsize_of_lt {d : Nat} (h : d % 2 ^ 32 < 2 ^ 31) :
    toJsize d = ((d % 2 ^ 32 : Nat) : Int) := by
  simp only [toJsize, h, if_true]

theorem mod_of_small {d : Nat} (h : d < 2 ^ 31) : d % 2 ^ 32 = d :=
  Nat.mod_eq_of_lt (by omega)

theorem toJsize_neg {d : Nat} (h : 2 ^ 31 ≤ d % 2 ^ 32) : toJsize d < 0 := by
  have h2 : d % 2 ^ 32 < 2 ^ 32 := Nat.mod_lt _ (by norm_num)
  have h3 : ¬ d % 2 ^ 32 < 2 ^ 31 := by omega
  simp only [toJsize, h3, if_false]
  omega

theorem toDWORD_length (data : JByteArray) :
    toDWORD (GetArrayLength data) = data.elems.length := by
  have := data.bound
  simp only [toDWORD, GetArrayLength]
  omega

theorem readBytes_memOf (l : List Byte) : readBytes (memOf l) l.length = l := by
  apply List.ext_getElem
  · simp [readBytes]
  · intro i h1 h2
    simp [readBytes, memOf, List.getD_eq_getElem?_getD, List.getElem?_eq_getElem h2]

theorem dataInOf_bytes (data : JByteArray) :
    (dataInOf data (GetArrayLength data)).bytes = data.elems := by
  simp [DATA_BLOB.bytes, dataInOf, toDWORD_length, readBytes_memOf]

theorem dataInOf_cbData (data : JByteArray) :
    (dataInOf data (GetArrayLength data)).cbData = data.elems.length := by
  simp [dataInOf, toDWORD_length]

/-! ## Lines 19-20 and 44-45: building the result array -/

theorem NewByteArray_neg (jvm : Jvm) (w : World) {len : Int} (h : len < 0) :
    NewByteArray jvm w len =
      ({ w with pending := some .NegativeArraySizeException }, none) := by
  have hn : ¬ (0 ≤ len ∧ len < 2 ^ 31) := by omega
  simp only [NewByteArray, hn, dite_false]

theorem NewByteArray_nat (jvm : Jvm) (w : World) {n : Nat} (h : n < 2 ^ 31)
    (hnew : jvm.constructs n = true) :
    NewByteArray jvm w (n : Int) =
      (w, some ⟨List.replicate n 0, by rw [List.length_replicate]; exact h⟩) := by
  have hn : 0 ≤ (n : Int) ∧ (n : Int) < 2 ^ 31 := by omega
  simp only [NewByteArray, hn, and_self, dite_true, Int.toNat_ofNat, hnew, if_true]

theorem NewByteArray_refused (jvm : Jvm) (w : World) {n : Nat} (h : n < 2 ^ 31)
    (hnew : jvm.constructs n = false) :
    NewByteArray jvm w (n : Int) = ({ w with pending := some .OutOfMemoryError }, none) := by
  have hn : 0 ≤ (n : Int) ∧ (n : Int) < 2 ^ 31 := by omega
  simp only [NewByteArray, hn, and_self, dite_true, Int.toNat_ofNat, hnew,
    Bool.false_eq_true, if_false]

theorem SetByteArrayRegion_null (w : World) (start len : Int) (buf : Mem) :
    SetByteArrayRegion w none start len buf = none := rfl

theorem SetByteArrayRegion_fresh (w : World) {n : Nat} (h : n < 2 ^ 31) (buf : Mem)
    (hb : (List.replicate n (0 : Byte)).length < 2 ^ 31) :
    SetByteArrayRegion w (some ⟨List.replicate n 0, hb⟩) 0 (n : Int) buf =
      some (w, ⟨readBytes buf n, by rw [readBytes_length]; exact h⟩) := by
  have hn : (0 : Int) ≤ 0 ∧ (0 : Int) ≤ (n : Int) ∧
      (0 : Int) + (n : Int) ≤ ((List.replicate n (0 : Byte)).length : Int) := by
    simp
  simp only [SetByteArrayRegion, hn, and_self, dite_true]
  simp

/-! ## Releasing what the service allocated -/

theorem LocalFree_head (live : List Nat) (pinned : Nat) (pending : Option Throwable)
    (trace : List Event) (h : Nat) :
    LocalFree ⟨[h].filter (fun h => h != 0) ++ live, pinned, pending, trace⟩ h =
      some ⟨live, pinned, pending, trace ++ [Event.localFree h]⟩ := by
  by_cases h0 : h = 0
  · subst h0
    simp [LocalFree]
  · have hf : [h].filter (fun h => h != 0) = [h] := by simp [h0]
    rw [hf]
    simp [LocalFree, h0]

theorem filter_pair (p : Nat → Bool) (a b : Nat) (l : List Nat) :
    [a, b].filter p ++ l = [a].filter p ++ ([b].filter p ++ l) := by
  simp only [List.filter]
  cases p a <;> cases p b <;> rfl

theorem abort_ne_commit : ¬ JNI_ABORT = JNI_COMMIT := by decide

theorem blocks_of_fail {o : OSOutcome} (h : o.ok = false) (b : Bool) : o.blocks b = [] := by
  simp only [OSOutcome.blocks, h, Bool.false_eq_true, if_false]

theorem blocks_of_ok {o : OSOutcome} (h : o.ok = true) (b : Bool) :
    o.blocks b = (if b then [o.hOut, o.hDescr] else [o.hOut]).filter (fun h => h != 0) := by
  simp only [OSOutcome.blocks, h, if_true]

/-! ## The paths of `protect` -/

theorem protect_of_fail (os : Dpapi) (jvm : Jvm) (w : World) (data : JByteArray)
    (h : (protectOutcome os data).ok = false) :
    protect os jvm w data =
      ⟨{ w with
          pinned := w.pinned + 1 - 1,
          trace := w.trace ++ [Event.getByteArrayElements,
            logProtect (protectArgs (dataInOf data (GetArrayLength data))),
            Event.releaseByteArrayElements JNI_ABORT] },
        dataAfter jvm.isCopy (protectOutcome os data) data,
        .returned none⟩ := by
  unfold protectOutcome at h
  simp only [protect, Java_com_OsKeyLocker_platform_windows_WindowsDPAPI_protect,
    GetByteArrayElements, callCryptProtectData, h, Bool.false_eq_true,
    if_false, ReleaseByteArrayElements, abort_ne_commit, if_true, dataAfter, protectOutcome,
    List.append_assoc, List.singleton_append, List.cons_append, List.nil_append,
    blocks_of_fail h]
  cases jvm.isCopy <;> rfl

theorem protect_of_negative (os : Dpapi) (jvm : Jvm) (w : World) (data : JByteArray)
    (h : (protectOutcome os data).ok = true)
    (hcb : 2 ^ 31 ≤ (protectOutcome os data).dataOut.cbData % 2 ^ 32) :
    protect os jvm w data =
      ⟨{ w with
          live := (protectOutcome os data).blocks false ++ w.live
          pinned := w.pinned + 1,
          pending := some .NegativeArraySizeException,
          trace := w.trace ++ [Event.getByteArrayElements,
            logProtect (protectArgs (dataInOf data (GetArrayLength data)))] },
        dataAfter jvm.isCopy (protectOutcome os data) data,
        .undefined⟩ := by
  have hneg := toJsize_neg hcb
  unfold protectOutcome at h hneg
  simp only [protect, Java_com_OsKeyLocker_platform_windows_WindowsDPAPI_protect,
    GetByteArrayElements, callCryptProtectData, h, if_true,
    NewByteArray_neg _ _ hneg, SetByteArrayRegion_null, dataAfter, protectOutcome,
    List.append_assoc, List.singleton_append]

theorem protect_of_refused (os : Dpapi) (jvm : Jvm) (w : World) (data : JByteArray)
    (h : (protectOutcome os data).ok = true)
    (hcb : (protectOutcome os data).dataOut.cbData % 2 ^ 32 < 2 ^ 31)
    (hnew : jvm.constructs ((protectOutcome os data).dataOut.cbData % 2 ^ 32) = false) :
    protect os jvm w data =
      ⟨{ w with
          live := (protectOutcome os data).blocks false ++ w.live
          pinned := w.pinned + 1,
          pending := some .OutOfMemoryError,
          trace := w.trace ++ [Event.getByteArrayElements,
            logProtect (protectArgs (dataInOf data (GetArrayLength data)))] },
        dataAfter jvm.isCopy (protectOutcome os data) data,
        .undefined⟩ := by
  have hj := toJsize_of_lt hcb
  unfold protectOutcome at h hj hcb hnew
  simp only [protect, Java_com_OsKeyLocker_platform_windows_WindowsDPAPI_protect,
    GetByteArrayElements, callCryptProtectData, h, if_true, hj,
    NewByteArray_refused _ _ hcb hnew, SetByteArrayRegion_null, dataAfter, protectOutcome,
    List.append_assoc, List.singleton_append]

theorem protect_of_small (os : Dpapi) (jvm : Jvm) (w : World) (data : JByteArray)
    (h : (protectOutcome os data).ok = true)
    (hcb : (protectOutcome os data).dataOut.cbData % 2 ^ 32 < 2 ^ 31)
    (hnew : jvm.constructs ((protectOutcome os data).dataOut.cbData % 2 ^ 32) = true) :
    protect os jvm w data =
      ⟨{ w with
          pinned := w.pinned + 1 - 1,
          trace := w.trace ++ [Event.getByteArrayElements,
            logProtect (protectArgs (dataInOf data (GetArrayLength data))),
            Event.localFree (protectOutcome os data).hOut,
            Event.releaseByteArrayElements JNI_ABORT] },
        dataAfter jvm.isCopy (protectOutcome os data) data,
        .returned (some (blobArray (protectOutcome os data).dataOut hcb))⟩ := by
  have hj := toJsize_of_lt hcb
  unfold protectOutcome at h hj hcb hnew
  simp only [protect, Java_com_OsKeyLocker_platform_windows_WindowsDPAPI_protect,
    GetByteArrayElements, callCryptProtectData, h, if_true, hj,
    NewByteArray_nat _ _ hcb hnew, SetByteArrayRegion_fresh _ hcb, blocks_of_ok h,
    Bool.false_eq_true,
    dataAfter, protectOutcome,
    List.append_assoc, List.singleton_append, LocalFree_head, ReleaseByteArrayElements,
    abort_ne_commit, if_false, if_true, List.cons_append, List.nil_append, blobArray]
  cases jvm.isCopy <;> rfl

/-! ## The paths of `unprotect` -/

theorem unprotect_of_fail (os : Dpapi) (jvm : Jvm) (w : World) (data : JByteArray)
    (h : (unprotectOutcome os data).ok = false) :
    unprotect os jvm w data =
      ⟨{ w with
          pinned := w.pinned + 1 - 1,
          trace := w.trace ++ [Event.getByteArrayElements,
            logUnprotect (unprotectArgs (dataInOf data (GetArrayLength data))),
            Event.releaseByteArrayElements JNI_ABORT] },
        dataAfter jvm.isCopy (unprotectOutcome os data) data,
        .returned none⟩ := by
  unfold unprotectOutcome at h
  simp only [unprotect, Java_com_OsKeyLocker_platform_windows_WindowsDPAPI_unprotect,
    GetByteArrayElements, callCryptUnprotectData, h, Bool.false_eq_true,
    if_false, ReleaseByteArrayElements, abort_ne_commit, if_true, dataAfter, unprotectOutcome,
    List.append_assoc, List.singleton_append, List.cons_append, List.nil_append,
    blocks_of_fail h]
  cases jvm.isCopy <;> rfl

theorem unprotect_of_negative (os : Dpapi) (jvm : Jvm) (w : World) (data : JByteArray)
    (h : (unprotectOutcome os data).ok = true)
    (hcb : 2 ^ 31 ≤ (unprotectOutcome os data).dataOut.cbData % 2 ^ 32) :
    unprotect os jvm w data =
      ⟨{ w with
          live := (unprotectOutcome os data).blocks true ++ w.live
          pinned := w.pinned + 1,
          pending := some .NegativeArraySizeException,
          trace := w.trace ++ [Event.getByteArrayElements,
            logUnprotect (unprotectArgs (dataInOf data (GetArrayLength data)))] },
        dataAfter jvm.isCopy (unprotectOutcome os data) data,
        .undefined⟩ := by
  have hneg := toJsize_neg hcb
  unfold unprotectOutcome at h hneg
  have hw : (unprotectArgs (dataInOf data (GetArrayLength data))).wantDescr = true := rfl
  simp only [unprotect, Java_com_OsKeyLocker_platform_windows_WindowsDPAPI_unprotect,
    GetByteArrayElements, callCryptUnprotectData, h, if_true, hw,
    NewByteArray_neg _ _ hneg, SetByteArrayRegion_null, dataAfter, unprotectOutcome,
    List.append_assoc, List.singleton_append]

theorem unprotect_of_refused (os : Dpapi) (jvm : Jvm) (w : World) (data : JByteArray)
    (h : (unprotectOutcome os data).ok = true)
    (hcb : (unprotectOutcome os data).dataOut.cbData % 2 ^ 32 < 2 ^ 31)
    (hnew : jvm.constructs ((unprotectOutcome os data).dataOut.cbData % 2 ^ 32) = false) :
    unprotect os jvm w data =
      ⟨{ w with
          live := (unprotectOutcome os data).blocks true ++ w.live
          pinned := w.pinned + 1,
          pending := some .OutOfMemoryError,
          trace := w.trace ++ [Event.getByteArrayElements,
            logUnprotect (unprotectArgs (dataInOf data (GetArrayLength data)))] },
        dataAfter jvm.isCopy (unprotectOutcome os data) data,
        .undefined⟩ := by
  have hj := toJsize_of_lt hcb
  unfold unprotectOutcome at h hj hcb hnew
  have hw : (unprotectArgs (dataInOf data (GetArrayLength data))).wantDescr = true := rfl
  simp only [unprotect, Java_com_OsKeyLocker_platform_windows_WindowsDPAPI_unprotect,
    GetByteArrayElements, callCryptUnprotectData, h, if_true, hw, hj,
    NewByteArray_refused _ _ hcb hnew, SetByteArrayRegion_null, dataAfter, unprotectOutcome,
    List.append_assoc, List.singleton_append]

theorem unprotect_of_small (os : Dpapi) (jvm : Jvm) (w : World) (data : JByteArray)
    (h : (unprotectOutcome os data).ok = true)
    (hcb : (unprotectOutcome os data).dataOut.cbData % 2 ^ 32 < 2 ^ 31)
    (hnew : jvm.constructs ((unprotectOutcome os data).dataOut.cbData % 2 ^ 32) = true) :
    unprotect os jvm w data =
      ⟨{ w with
          pinned := w.pinned + 1 - 1,
          trace := w.trace ++ [Event.getByteArrayElements,
            logUnprotect (unprotectArgs (dataInOf data (GetArrayLength data))),
            Event.localFree (unprotectOutcome os data).hOut,
            Event.localFree (unprotectOutcome os data).hDescr,
            Event.releaseByteArrayElements JNI_ABORT] },
        dataAfter jvm.isCopy (unprotectOutcome os data) data,
        .returned (some (blobArray (unprotectOutcome os data).dataOut hcb))⟩ := by
  have hj := toJsize_of_lt hcb
  unfold unprotectOutcome at h hj hcb hnew
  have hw : (unprotectArgs (dataInOf data (GetArrayLength data))).wantDescr = true := rfl
  simp only [unprotect, Java_com_OsKeyLocker_platform_windows_WindowsDPAPI_unprotect,
    GetByteArrayElements, callCryptUnprotectData, h, if_true, hj, hw,
    NewByteArray_nat _ _ hcb hnew, SetByteArrayRegion_fresh _ hcb, blocks_of_ok h,
    dataAfter, unprotectOutcome,
    List.append_assoc, List.singleton_append, filter_pair, LocalFree_head,
    ReleaseByteArrayElements,
    abort_ne_commit, if_false, List.cons_append, List.nil_append, blobArray]
  cases jvm.isCopy <;> rfl

/-! ## Both methods: the returning paths and the paths without a return -/

theorem retOf_of_fail {o : OSOutcome} (h : o.ok = false) : retOf o = none := by
  simp only [retOf, h, Bool.false_eq_true, false_and, dite_false]

theorem retOf_of_small {o : OSOutcome} (h : o.ok = true)
    (hcb : o.dataOut.cbData % 2 ^ 32 < 2 ^ 31) :
    retOf o = some (blobArray o.dataOut hcb) := by
  simp only [retOf, h, hcb, and_self, dite_true]

theorem frees_of_fail {o : OSOutcome} (h : o.ok = false) (op : Op) : frees op o = [] := by
  simp only [frees, h, Bool.false_eq_true, if_false]

theorem fits_of_ok {jvm : Jvm} {o : OSOutcome} (h : Fits jvm o) (hok : o.ok = true) :
    o.dataOut.cbData % 2 ^ 32 < 2 ^ 31 ∧ jvm.constructs (o.dataOut.cbData % 2 ^ 32) = true := by
  rcases h with h | h
  · rw [hok] at h
    exact absurd h (by decide)
  · exact h

theorem ok_of_not_fits {jvm : Jvm} {o : OSOutcome} (h : ¬ Fits jvm o) : o.ok = true := by
  cases hb : o.ok
  · exact absurd (Or.inl hb) h
  · rfl

theorem run_of_fits (op : Op) (os : Dpapi) (jvm : Jvm) (w : World) (data : JByteArray)
    (h : Fits jvm (outcomeOf op os data)) :
    run op os jvm w data =
      ⟨{ w with
          pinned := w.pinned + 1 - 1,
          trace := w.trace ++ ([Event.getByteArrayElements, serviceCall op data] ++
            frees op (outcomeOf op os data) ++ [Event.releaseByteArrayElements JNI_ABORT]) },
        dataAfter jvm.isCopy (outcomeOf op os data) data,
        .returned (retOf (outcomeOf op os data))⟩ := by
  cases op
  · cases hok : (protectOutcome os data).ok
    · simp only [run, outcomeOf, serviceCall, protect_of_fail os jvm w data hok,
        retOf_of_fail hok, frees_of_fail hok, List.append_nil, List.cons_append,
        List.nil_append]
    · obtain ⟨hcb, hnew⟩ := fits_of_ok h hok
      simp only [run, outcomeOf, serviceCall, protect_of_small os jvm w data hok hcb hnew,
        retOf_of_small hok hcb, frees, hok, if_true, List.cons_append, List.nil_append]
  · cases hok : (unprotectOutcome os data).ok
    · simp only [run, outcomeOf, serviceCall, unprotect_of_fail os jvm w data hok,
        retOf_of_fail hok, frees_of_fail hok, List.append_nil, List.cons_append,
        List.nil_append]
    · obtain ⟨hcb, hnew⟩ := fits_of_ok h hok
      simp only [run, outcomeOf, serviceCall, unprotect_of_small os jvm w data hok hcb hnew,
        retOf_of_small hok hcb, frees, hok, if_true, List.cons_append, List.nil_append]

theorem run_of_not_fits (op : Op) (os : Dpapi) (jvm : Jvm) (w : World) (data : JByteArray)
    (h : ¬ Fits jvm (outcomeOf op os data)) :
    run op os jvm w data =
      ⟨{ w with
          live := (outcomeOf op os data).blocks op.wantDescr ++ w.live
          pinned := w.pinned + 1,
          pending := some (refusal (outcomeOf op os data)),
          trace := w.trace ++ [Event.getByteArrayElements, serviceCall op data] },
        dataAfter jvm.isCopy (outcomeOf op os data) data,
        .undefined⟩ := by
  have hok := ok_of_not_fits h
  by_cases hcb : (outcomeOf op os data).dataOut.cbData % 2 ^ 32 < 2 ^ 31
  · have hnew : jvm.constructs ((outcomeOf op os data).dataOut.cbData % 2 ^ 32) = false := by
      cases hc : jvm.constructs ((outcomeOf op os data).dataOut.cbData % 2 ^ 32)
      · rfl
      · exact absurd (Or.inr ⟨hcb, hc⟩) h
    have hr : refusal (outcomeOf op os data) = .OutOfMemoryError := by
      simp only [refusal, hcb, if_true]
    rw [hr]
    cases op
    · exact protect_of_refused os jvm w data hok hcb hnew
    · exact unprotect_of_refused os jvm w data hok hcb hnew
  · have hr : refusal (outcomeOf op os data) = .NegativeArraySizeException := by
      simp only [refusal, hcb, if_false]
    rw [hr]
    cases op
    · exact protect_of_negative os jvm w data hok (Nat.le_of_not_lt hcb)
    · exact unprotect_of_negative os jvm w data hok (Nat.le_of_not_lt hcb)

/-- The native code returns exactly on the fitting outcomes. -/
theorem returns_iff_fits (op : Op) (os : Dpapi) (jvm : Jvm) (w : World)
    (data : JByteArray) :
    (∃ r, (run op os jvm w data).ret = .returned r) ↔ Fits jvm (outcomeOf op os data) := by
  constructor
  · rintro ⟨r, hr⟩
    by_contra hn
    rw [run_of_not_fits op os jvm w data hn] at hr
    exact absurd hr (by simp)
  · intro h
    exact ⟨_, by rw [run_of_fits op os jvm w data h]⟩

/-! ## Trace observers on appended events -/

theorem osCalls_append (s t : List Event) : osCalls (s ++ t) = osCalls s ++ osCalls t := by
  simp [osCalls]

theorem freedHandles_append (s t : List Event) :
    freedHandles (s ++ t) = freedHandles s ++ freedHandles t := by
  simp [freedHandles]

theorem acquisitions_append (s t : List Event) :
    acquisitions (s ++ t) = acquisitions s + acquisitions t := by
  simp [acquisitions]

theorem releases_append (s t : List Event) : releases (s ++ t) = releases s + releases t := by
  simp [releases]

theorem freedHandles_frees (op : Op) (o : OSOutcome) :
    freedHandles (frees op o) = o.blocks op.wantDescr := by
  cases hok : o.ok
  · simp [frees, hok, freedHandles, OSOutcome.blocks]
  · cases op
    · by_cases h1 : o.hOut = 0 <;>
        simp [frees, hok, freedHandles, Event.freed, OSOutcome.blocks, Op.wantDescr, h1]
    · by_cases h1 : o.hOut = 0 <;> by_cases h2 : o.hDescr = 0 <;>
        simp [frees, hok, freedHandles, Event.freed, OSOutcome.blocks, Op.wantDescr, h1, h2]

theorem osCalls_frees (op : Op) (o : OSOutcome) : osCalls (frees op o) = [] := by
  cases hok : o.ok <;> cases op <;> simp [frees, hok, osCalls, Event.isServiceCall]

theorem acquisitions_frees (op : Op) (o : OSOutcome) : acquisitions (frees op o) = 0 := by
  cases hok : o.ok <;> cases op <;> simp [frees, hok, acquisitions, Event.isAcquire]

theorem releases_frees (op : Op) (o : OSOutcome) : releases (frees op o) = 0 := by
  cases hok : o.ok <;> cases op <;> simp [frees, hok, releases, Event.isRelease]

theorem isServiceCall_serviceCall (op : Op) (data : JByteArray) :
    (serviceCall op data).isServiceCall = true := by
  cases op <;> rfl

/-! ## What every call does, returning or not -/

theorem osCalls_entry (op : Op) (data : JByteArray) :
    osCalls [Event.getByteArrayElements, serviceCall op data] = [serviceCall op data] := by
  cases op <;> rfl

theorem osCalls_exit (mode : Int) : osCalls [Event.releaseByteArrayElements mode] = [] := rfl

theorem osCalls_run (op : Op) (os : Dpapi) (jvm : Jvm) (w : World) (data : JByteArray) :
    osCalls (run op os jvm w data).world.trace = osCalls w.trace ++ [serviceCall op data] := by
  by_cases hf : Fits jvm (outcomeOf op os data)
  · rw [run_of_fits op os jvm w data hf]
    simp only [osCalls_append, osCalls_frees, List.append_nil, osCalls_entry, osCalls_exit]
  · rw [run_of_not_fits op os jvm w data hf]
    simp only [osCalls_append, osCalls_entry]

theorem serviceCall_protect (p : JByteArray) :
    serviceCall .protect p =
      Event.cryptProtectData p.elems.length p.elems (some "OsKeyLocker") false false false 0 := by
  simp only [serviceCall, logProtect, protectArgs, dataInOf_bytes, dataInOf_cbData]
  rfl

theorem ret_null_iff (op : Op) (os : Dpapi) (jvm : Jvm) (w : World) (data : JByteArray) :
    (run op os jvm w data).ret = .returned none ↔ (outcomeOf op os data).ok = false := by
  constructor
  · intro hr
    cases hb : (outcomeOf op os data).ok
    · rfl
    · exfalso
      by_cases hf : Fits jvm (outcomeOf op os data)
      · rw [run_of_fits op os jvm w data hf, retOf_of_small hb (fits_of_ok hf hb).1] at hr
        simp at hr
      · rw [run_of_not_fits op os jvm w data hf] at hr
        simp at hr
  · intro hb
    rw [run_of_fits op os jvm w data (Or.inl hb), retOf_of_fail hb]

/-! ## The returned value depends on the output blob only -/

theorem readBytes_congr {p q : Mem} {n : Nat} (h : ∀ i, i < n → p i = q i) :
    readBytes p n = readBytes q n := by
  unfold readBytes
  apply List.map_congr_left
  intro i hi
  exact h i (List.mem_range.mp hi)

theorem retOf_elems {o : OSOutcome} {a : JByteArray} (h : retOf o = some a) :
    a.elems = readBytes o.dataOut.pbData (o.dataOut.cbData % 2 ^ 32) := by
  unfold retOf at h
  split at h
  · cases h
    rfl
  · cases h

theorem retOf_congr {o1 o2 : OSOutcome} (hok : o1.ok = o2.ok)
    (hcb : o1.dataOut.cbData = o2.dataOut.cbData)
    (hbuf : ∀ i, i < o1.dataOut.cbData → o1.dataOut.pbData i = o2.dataOut.pbData i) :
    retOf o1 = retOf o2 := by
  have hrd : readBytes o1.dataOut.pbData (o1.dataOut.cbData % 2 ^ 32) =
      readBytes o2.dataOut.pbData (o2.dataOut.cbData % 2 ^ 32) := by
    rw [← hcb]
    exact readBytes_congr (fun i hi =>
      hbuf i (lt_of_lt_of_le hi (Nat.mod_le _ _)))
  unfold retOf
  by_cases h : o1.ok = true ∧ o1.dataOut.cbData % 2 ^ 32 < 2 ^ 31
  · have h2 : o2.ok = true ∧ o2.dataOut.cbData % 2 ^ 32 < 2 ^ 31 := by
      rw [← hok, ← hcb]; exact h
    rw [dif_pos h, dif_pos h2]
    simp only [blobArray, hrd]
  · have h2 : ¬ (o2.ok = true ∧ o2.dataOut.cbData % 2 ^ 32 < 2 ^ 31) := by
      rw [← hok, ← hcb]; exact h
    rw [dif_neg h, dif_neg h2]

theorem ret_congr (op : Op) (os1 os2 : Dpapi) (jvm : Jvm) (w : World) (data : JByteArray)
    (hok : (outcomeOf op os1 data).ok = (outcomeOf op os2 data).ok)
    (hcb : (outcomeOf op os1 data).dataOut.cbData = (outcomeOf op os2 data).dataOut.cbData)
    (hbuf : ∀ i, i < (outcomeOf op os1 data).dataOut.cbData →
      (outcomeOf op os1 data).dataOut.pbData i = (outcomeOf op os2 data).dataOut.pbData i) :
    (run op os1 jvm w data).ret = (run op os2 jvm w data).ret := by
  have hiff : Fits jvm (outcomeOf op os1 data) ↔ Fits jvm (outcomeOf op os2 data) := by
    unfold Fits
    rw [hok, hcb]
  by_cases hf : Fits jvm (outcomeOf op os1 data)
  · rw [run_of_fits op os1 jvm w data hf, run_of_fits op os2 jvm w data (hiff.mp hf),
      retOf_congr hok hcb hbuf]
  · rw [run_of_not_fits op os1 jvm w data hf,
      run_of_not_fits op os2 jvm w data (fun h => hf (hiff.mpr h))]

theorem ret_elems (op : Op) (os : Dpapi) (jvm : Jvm) (w : World) (data a : JByteArray)
    (h : (run op os jvm w data).ret = .returned (some a)) :
    a.elems = readBytes (outcomeOf op os data).dataOut.pbData
      ((outcomeOf op os data).dataOut.cbData % 2 ^ 32) := by
  have hf : Fits jvm (outcomeOf op os data) := (returns_iff_fits op os jvm w data).mp ⟨_, h⟩
  rw [run_of_fits op os jvm w data hf] at h
  simp only [Ret.returned.injEq] at h
  exact retOf_elems h

/-! ## The caller's array and the element buffer -/

theorem storeInto_none {stores : Nat → Option Byte} (h : ∀ i, stores i = none)
    (l : List Byte) (k : Nat) : storeInto stores k l = l := by
  induction l generalizing k with
  | nil => rfl
  | cons b bs ih => simp [storeInto, h, ih]

theorem dataAfter_eq (isCopy : Bool) (o : OSOutcome) (data : JByteArray)
    (h : isCopy = true ∨ ∀ i, o.stores i = none) : dataAfter isCopy o data = data := by
  rcases h with h | h
  · simp only [dataAfter, h, if_true]
  · cases isCopy
    · simp only [dataAfter, Bool.false_eq_true, if_false, scribble, storeInto_none h]
    · rfl

theorem freedHandles_entry (op : Op) (data : JByteArray) :
    freedHandles [Event.getByteArrayElements, serviceCall op data] = [] := by
  cases op <;> rfl

theorem acquisitions_entry (op : Op) (data : JByteArray) :
    acquisitions [Event.getByteArrayElements, serviceCall op data] = 1 := by
  cases op <;> rfl

theorem releases_entry (op : Op) (data : JByteArray) :
    releases [Event.getByteArrayElements, serviceCall op data] = 0 := by
  cases op <;> rfl

theorem freedHandles_run (op : Op) (os : Dpapi) (jvm : Jvm) (w : World)
    (data : JByteArray) (h : Fits jvm (outcomeOf op os data)) :
    freedHandles (run op os jvm w data).world.trace =
      freedHandles w.trace ++ (outcomeOf op os data).blocks op.wantDescr := by
  rw [run_of_fits op os jvm w data h]
  simp only [freedHandles_append, freedHandles_entry, freedHandles_frees, List.nil_append]
  simp [freedHandles, Event.freed]

/-! ## Sequences of returning calls -/

theorem runCalls_of_fits (cs : List Call) (w : World)
    (hfit : ∀ c ∈ cs, Fits c.jvm c.outcome) :
    ∃ w2, runCalls cs w = some w2 ∧ w2.live = w.live ∧
      freedHandles w2.trace = freedHandles w.trace ++ allBlocks cs := by
  induction cs generalizing w with
  | nil => exact ⟨w, rfl, rfl, by simp [allBlocks]⟩
  | cons c cs ih =>
    have hc : Fits c.jvm (outcomeOf c.op c.os c.data) := hfit c (List.mem_cons_self _ _)
    obtain ⟨w2, h1, h2, h3⟩ := ih (c.run w).world
      (fun d hd => hfit d (List.mem_cons_of_mem _ hd))
    refine ⟨w2, ?_, ?_, ?_⟩
    · have hr : (c.run w).ret = .returned (retOf (outcomeOf c.op c.os c.data)) := by
        unfold Call.run
        rw [run_of_fits c.op c.os c.jvm w c.data hc]
      simp only [runCalls, hr]
      exact h1
    · rw [h2]
      unfold Call.run
      rw [run_of_fits c.op c.os c.jvm w c.data hc]
    · rw [h3]
      have hf := freedHandles_run c.op c.os c.jvm w c.data hc
      unfold Call.run
      rw [hf]
      simp [allBlocks, Call.blocks, Call.outcome]

/-! ## Sealing followed by unsealing -/

theorem readBytes_eq {p q : Mem} {n m : Nat} (h : readBytes p n = readBytes q m) :
    n = m ∧ ∀ i, i < n → p i = q i := by
  have hl : n = m := by
    have := congrArg List.length h
    rwa [readBytes_length, readBytes_length] at this
  refine ⟨hl, fun i hi => ?_⟩
  have hi2 : i < m := hl ▸ hi
  have h1 : (readBytes p n)[i]? = (readBytes q m)[i]? := by rw [h]
  simp only [readBytes, List.getElem?_map, List.getElem?_range hi,
    List.getElem?_range hi2, Option.map_some] at h1
  exact Option.some.inj h1

theorem JByteArray.eq_of_elems {a b : JByteArray} (h : a.elems = b.elems) : a = b := by
  cases a
  cases b
  simp only [JByteArray.mk.injEq]
  exact h

theorem blobArray_elems (b : DATA_BLOB) (h : b.cbData % 2 ^ 32 < 2 ^ 31)
    (hs : b.cbData < 2 ^ 31) : (blobArray b h).elems = b.bytes := by
  simp only [blobArray, DATA_BLOB.bytes, mod_of_small hs]

theorem roundTrip_of_inverts (os : Dpapi) (jvm1 jvm2 : Jvm) (w : World) (p : JByteArray)
    (hinv : InvertsOn os p.elems)
    (hfit : (protectOutcome os p).dataOut.cbData < 2 ^ 31)
    (hnew1 : jvm1.constructs (protectOutcome os p).dataOut.cbData = true)
    (hnew2 : jvm2.constructs p.elems.length = true) :
    roundTrip os jvm1 jvm2 w p = some p := by
  obtain ⟨hok, hu⟩ := hinv (protectArgs (dataInOf p (GetArrayLength p)))
    ⟨rfl, rfl, rfl, rfl⟩ (dataInOf_bytes p)
  have hok1 : (protectOutcome os p).ok = true := hok
  have hcb : (protectOutcome os p).dataOut.cbData % 2 ^ 32 < 2 ^ 31 := by
    rw [mod_of_small hfit]; exact hfit
  have hn1 : jvm1.constructs ((protectOutcome os p).dataOut.cbData % 2 ^ 32) = true := by
    rw [mod_of_small hfit]; exact hnew1
  have hc : (blobArray (protectOutcome os p).dataOut hcb).elems =
      (protectOutcome os p).dataOut.bytes := blobArray_elems _ hcb hfit
  obtain ⟨hok2, hb2⟩ := hu
    (unprotectArgs (dataInOf (blobArray (protectOutcome os p).dataOut hcb)
      (GetArrayLength (blobArray (protectOutcome os p).dataOut hcb))))
    ⟨rfl, rfl, rfl, rfl⟩
    (by show (dataInOf _ _).bytes = _
        rw [dataInOf_bytes, hc]; rfl)
  have hok3 : (unprotectOutcome os (blobArray (protectOutcome os p).dataOut hcb)).ok = true :=
    hok2
  have hb3 : (unprotectOutcome os (blobArray (protectOutcome os p).dataOut hcb)).dataOut.bytes
      = p.elems := hb2
  have hlen : (unprotectOutcome os (blobArray (protectOutcome os p).dataOut hcb)).dataOut.cbData
      = p.elems.length := by
    have := congrArg List.length hb3
    rwa [DATA_BLOB.bytes, readBytes_length] at this
  have hsmall : (unprotectOutcome os
      (blobArray (protectOutcome os p).dataOut hcb)).dataOut.cbData < 2 ^ 31 := by
    rw [hlen]; exact p.bound
  have hcb2 : (unprotectOutcome os
      (blobArray (protectOutcome os p).dataOut hcb)).dataOut.cbData % 2 ^ 32 < 2 ^ 31 := by
    rw [mod_of_small hsmall]; exact hsmall
  have hn2 : jvm2.constructs ((unprotectOutcome os
      (blobArray (protectOutcome os p).dataOut hcb)).dataOut.cbData % 2 ^ 32) = true := by
    rw [mod_of_small hsmall, hlen]; exact hnew2
  have hfinal : blobArray (unprotectOutcome os
      (blobArray (protectOutcome os p).dataOut hcb)).dataOut hcb2 = p := by
    apply JByteArray.eq_of_elems
    rw [blobArray_elems _ hcb2 hsmall]
    exact hb3
  unfold roundTrip
  rw [protect_of_small os jvm1 w p hok1 hcb hn1]
  simp only []
  rw [unprotect_of_small os jvm2 _ _ hok3 hcb2 hn2]
  simp only [hfinal]

theorem echoOS_inverts (p : List Byte) : InvertsOn echoOS p := by
  intro a _ ha
  refine ⟨rfl, fun u _ hu => ⟨rfl, ?_⟩⟩
  rw [← ha]
  exact hu

theorem headerOS_inverts (k : Nat) (p : List Byte) : InvertsOn (headerOS k) p := by
  intro a _ ha
  refine ⟨rfl, fun u _ hu => ⟨rfl, ?_⟩⟩
  rw [← ha]
  obtain ⟨hl, hb⟩ := readBytes_eq hu
  have hl2 : u.pDataIn.cbData = k + a.pDataIn.cbData := hl
  show readBytes (fun i => u.pDataIn.pbData (i + k)) (u.pDataIn.cbData - k) =
    readBytes a.pDataIn.pbData a.pDataIn.cbData
  rw [hl2, Nat.add_sub_cancel_left]
  apply readBytes_congr
  intro i hi
  have h1 := hb (i + k) (by omega)
  rw [h1]
  show (if i + k < k then (0 : Byte) else a.pDataIn.pbData (i + k - k)) = a.pDataIn.pbData i
  rw [if_neg (by omega), Nat.add_sub_cancel]

theorem pickyOS_inverts (p : List Byte) (hp : p ≠ []) : InvertsOn pickyOS p := by
  intro a _ ha
  have hne : a.pDataIn.cbData ≠ 0 := by
    intro h0
    apply hp
    rw [← ha, DATA_BLOB.bytes, h0]
    rfl
  refine ⟨by simp [pickyOS, hne], fun u _ hu => ⟨rfl, ?_⟩⟩
  rw [← ha]
  exact hu

/-! # The claims -/

/-- C8. Whatever the service answers and whichever path is taken, `protect`
calls the protection service exactly once; the call carries an input buffer
with exactly the bytes and the length of the plaintext `p`, the fixed label
"OsKeyLocker", no entropy, no reserved pointer, no prompt structure and flags
0. Only the input buffer depends on `p`. -/
theorem protect_calls_service_once (os : Dpapi) (jvm : Jvm) (w : World) (p : JByteArray) :
    osCalls (protect os jvm w p).world.trace =
      osCalls w.trace ++
        [Event.cryptProtectData p.elems.length p.elems (some "OsKeyLocker")
          false false false 0] := by
  have h := osCalls_run .protect os jvm w p
  rw [serviceCall_protect] at h
  exact h

/-- C3. When the service call of `unprotect` fails, `unprotect` returns `NULL`,
and so the same value for any two failing outcomes on any two blobs, in any
two states of the process and of the JVM (in particular for a second call on
the same blob right after a first one). -/
theorem unprotect_failure_uniform (os1 os2 : Dpapi) (j1 j2 : Jvm) (w1 w2 : World)
    (b1 b2 : JByteArray)
    (h1 : (unprotectOutcome os1 b1).ok = false) (h2 : (unprotectOutcome os2 b2).ok = false) :
    (unprotect os1 j1 w1 b1).ret = .returned none ∧
      (unprotect os2 j2 w2 b2).ret = (unprotect os1 j1 w1 b1).ret := by
  rw [unprotect_of_fail os1 j1 w1 b1 h1, unprotect_of_fail os2 j2 w2 b2 h2]
  exact ⟨rfl, rfl⟩

/-- Witness for C3: the truncated blob `[0x68]` is rejected with error 13 and,
on a second call in the state the first call left, with error 5; both calls
return `NULL`. -/
theorem unprotect_failure_uniform_witness :
    (unprotectOutcome (failingOS 13) ⟨[0x68], by decide⟩).ok = false ∧
    (unprotectOutcome (failingOS 5) ⟨[0x68], by decide⟩).ok = false ∧
    (unprotect (failingOS 13) copyingJvm World.init ⟨[0x68], by decide⟩).ret =
      .returned none ∧
    (unprotect (failingOS 5) exhaustedJvm
        (unprotect (failingOS 13) copyingJvm World.init ⟨[0x68], by decide⟩).world
        ⟨[0x68], by decide⟩).ret =
      (unprotect (failingOS 13) copyingJvm World.init ⟨[0x68], by decide⟩).ret :=
  ⟨rfl, rfl,
    unprotect_failure_uniform (failingOS 13) (failingOS 5) copyingJvm exhaustedJvm World.init
      (unprotect (failingOS 13) copyingJvm World.init ⟨[0x68], by decide⟩).world
      ⟨[0x68], by decide⟩ ⟨[0x68], by decide⟩ rfl rfl⟩

/-- C2, as stated, fails: the failure result of `protect` does not preserve
the error code of the service. No function recovers the code from the value
`protect` returns: the calls failing with code 5 and with code 87 return the
same value (`GetLastError` is never called). -/
theorem protect_error_code_lost :
    ¬ ∃ recover : Ret → Nat,
        ∀ code : Nat,
          recover (protect (failingOS code) copyingJvm World.init hello).ret = code := by
  rintro ⟨recover, h⟩
  have h5 := h 5
  have h87 := h 87
  have heq : (protect (failingOS 5) copyingJvm World.init hello).ret =
      (protect (failingOS 87) copyingJvm World.init hello).ret := by decide
  rw [heq, h87] at h5
  exact absurd h5 (by decide)

/-- C2, amended. For every plaintext and every outcome of the service,
`protect` returns the failure value `NULL` if and only if the service call
reports failure; the service is called exactly once (no retry, nothing
swallowed); and the failure value is the same for any two failing calls,
whatever the plaintexts and whatever the error codes: it carries no byte of
the plaintext and no error code. -/
theorem protect_fails_iff_service_fails (os1 os2 : Dpapi) (j1 j2 : Jvm) (w1 w2 : World)
    (p1 p2 : JByteArray) :
    ((protect os1 j1 w1 p1).ret = .returned none ↔ (protectOutcome os1 p1).ok = false) ∧
    osCalls (protect os1 j1 w1 p1).world.trace =
      osCalls w1.trace ++
        [Event.cryptProtectData p1.elems.length p1.elems (some "OsKeyLocker")
          false false false 0] ∧
    ((protectOutcome os1 p1).ok = false → (protectOutcome os2 p2).ok = false →
      (protect os1 j1 w1 p1).ret = (protect os2 j2 w2 p2).ret) := by
  refine ⟨ret_null_iff .protect os1 j1 w1 p1, ?_, ?_⟩
  · have h := osCalls_run .protect os1 j1 w1 p1
    rw [serviceCall_protect] at h
    exact h
  · intro h1 h2
    rw [protect_of_fail os1 j1 w1 p1 h1, protect_of_fail os2 j2 w2 p2 h2]

/-- Witness for C2 (amended): failures with codes 5 and 87 on different
plaintexts give the same returned value. -/
theorem protect_fails_iff_service_fails_witness :
    (protect (failingOS 5) copyingJvm World.init hello).ret =
      (protect (failingOS 87) directJvm World.init JByteArray.empty).ret :=
  (protect_fails_iff_service_fails (failingOS 5) (failingOS 87) copyingJvm directJvm
    World.init World.init hello JByteArray.empty).2.2 rfl rfl

/-- C4, the failing input. The service reports success with `cbData` = 2^31.
`NewByteArray` receives the negative `jsize` -2^31 and returns `NULL`,
`SetByteArrayRegion` is applied to `NULL`, and the call has no defined
behaviour: neither the failure value nor an array of 2^31 bytes is returned.
The output block is still allocated and the elements are still acquired. -/
theorem oversized_output_undefined :
    protect hugeOS copyingJvm World.init JByteArray.empty =
      ⟨⟨[1], 1, some .NegativeArraySizeException,
          [.getByteArrayElements,
            .cryptProtectData 0 [] (some "OsKeyLocker") false false false 0]⟩,
        JByteArray.empty, .undefined⟩ ∧
    unprotect hugeOS copyingJvm World.init JByteArray.empty =
      ⟨⟨[1, 2], 1, some .NegativeArraySizeException,
          [.getByteArrayElements, .cryptUnprotectData 0 [] true false false false 0]⟩,
        JByteArray.empty, .undefined⟩ := by
  decide

/-- C9. `unprotect` discards the description string: for every blob and any
two service outcomes that agree on the success flag and on the output buffer
(its size and its bytes), whatever their description strings, `unprotect`
returns the same value; and a returned array consists of the bytes of the
output buffer and of nothing else (`cbData` is a `DWORD`, read modulo 2^32). -/
theorem description_discarded (os1 os2 : Dpapi) (jvm : Jvm) (w : World)
    (blob : JByteArray)
    (hok : (unprotectOutcome os1 blob).ok = (unprotectOutcome os2 blob).ok)
    (hcb : (unprotectOutcome os1 blob).dataOut.cbData =
      (unprotectOutcome os2 blob).dataOut.cbData)
    (hbuf : ∀ i, i < (unprotectOutcome os1 blob).dataOut.cbData →
      (unprotectOutcome os1 blob).dataOut.pbData i =
        (unprotectOutcome os2 blob).dataOut.pbData i) :
    (unprotect os1 jvm w blob).ret = (unprotect os2 jvm w blob).ret ∧
      ∀ a, (unprotect os1 jvm w blob).ret = .returned (some a) →
        a.elems = readBytes (unprotectOutcome os1 blob).dataOut.pbData
          ((unprotectOutcome os1 blob).dataOut.cbData % 2 ^ 32) :=
  ⟨ret_congr .unprotect os1 os2 jvm w blob hok hcb hbuf,
    fun a ha => ret_elems .unprotect os1 jvm w blob a ha⟩

/-- Witness for C9: two echoing services whose description strings differ
(`Os` and `hello`). -/
theorem description_discarded_witness :
    (unprotectOutcome echoOS hello).descr ≠ (unprotectOutcome echoOS2 hello).descr ∧
    (unprotect echoOS copyingJvm World.init hello).ret =
      (unprotect echoOS2 copyingJvm World.init hello).ret ∧
    ∀ a, (unprotect echoOS copyingJvm World.init hello).ret = .returned (some a) →
      a.elems = readBytes (unprotectOutcome echoOS hello).dataOut.pbData
        ((unprotectOutcome echoOS hello).dataOut.cbData % 2 ^ 32) :=
  ⟨by decide,
    description_discarded echoOS echoOS2 copyingJvm World.init hello rfl rfl
      (fun _ _ => rfl)⟩

/-- C5. Over the set of live local-heap blocks: for every sequence of calls of
`protect` and `unprotect` that return (each service call failed, or reported a
size that is a non-negative `jsize` for which `NewByteArray` constructed the
array: `Fits`, see `returns_iff_fits`), all calls return, the blocks handed to
`LocalFree` are
exactly the blocks the service allocated during the calls (the output blob of
each successful call and the description string of each successful
`unprotect`), each one once and in order of allocation, and the live set after
the calls equals the live set before them. A single call is the sequence of
length one. -/
theorem no_leak_no_double_free (cs : List Call) (w : World)
    (hfit : ∀ c ∈ cs, Fits c.jvm c.outcome) :
    ∃ w2, runCalls cs w = some w2 ∧ w2.live = w.live ∧
      freedHandles w2.trace = freedHandles w.trace ++ allBlocks cs :=
  runCalls_of_fits cs w hfit

/-- Witness for C5: sealing and unsealing hello; the blocks 7, then 7 and 9,
are freed and the live set stays `[3]`. -/
theorem no_leak_no_double_free_witness :
    (∀ c ∈ demoCalls, Fits c.jvm c.outcome) ∧ allBlocks demoCalls = [7, 7, 9] ∧
    ∃ w2, runCalls demoCalls ⟨[3], 0, none, []⟩ = some w2 ∧
      w2.live = (⟨[3], 0, none, []⟩ : World).live ∧
      freedHandles w2.trace =
        freedHandles (⟨[3], 0, none, []⟩ : World).trace ++ allBlocks demoCalls :=
  ⟨by decide, by decide, no_leak_no_double_free demoCalls ⟨[3], 0, none, []⟩ (by decide)⟩

/-- C6, as stated, fails: when the JVM hands out the array itself rather than a
copy and the service stores into its input buffer, the caller's array is
changed when `protect` returns, although the elements are released with
`JNI_ABORT`. -/
theorem input_array_overwritten :
    (protect scribblingOS directJvm World.init hello).ret = .returned none ∧
    (protect scribblingOS directJvm World.init hello).data.elems =
      [0xFF, 0xFF, 0xFF, 0xFF, 0xFF] ∧
    (protect scribblingOS directJvm World.init hello).data ≠ hello := by
  decide

/-- C6, amended. For every input array and every service outcome on which the
call returns: the elements are acquired once and released once, with
`JNI_ABORT`, leaving no element buffer outstanding, in every case; and the
caller's array holds exactly the bytes it held before the call whenever the
JVM handed out a copy of the elements (nothing is copied back, whatever the
service stored into the copy) or the service stored nothing into its input
buffer. If the JVM handed out the array itself, the array holds what the
service left in it. -/
theorem input_array_preserved (op : Op) (os : Dpapi) (jvm : Jvm) (w : World)
    (data : JByteArray)
    (hfit : Fits jvm (outcomeOf op os data)) :
    acquisitions (run op os jvm w data).world.trace = acquisitions w.trace + 1 ∧
      releases (run op os jvm w data).world.trace = releases w.trace + 1 ∧
      (run op os jvm w data).world.trace.getLast? =
        some (Event.releaseByteArrayElements JNI_ABORT) ∧
      (run op os jvm w data).world.pinned = w.pinned ∧
      ((jvm.isCopy = true ∨ ∀ i, (outcomeOf op os data).stores i = none) →
        (run op os jvm w data).data = data) ∧
      (jvm.isCopy = false →
        (run op os jvm w data).data = scribble (outcomeOf op os data).stores data) := by
  rw [run_of_fits op os jvm w data hfit]
  refine ⟨?_, ?_, ?_, ?_, ?_, ?_⟩
  · simp only [acquisitions_append, acquisitions_entry, acquisitions_frees]
    rfl
  · simp only [releases_append, releases_entry, releases_frees]
    rfl
  · simp only [← List.append_assoc, List.getLast?_append, List.getLast?_singleton]
    rfl
  · simp
  · intro hro
    exact dataAfter_eq jvm.isCopy _ data hro
  · intro hd
    simp only [dataAfter, hd, Bool.false_eq_true, if_false]

/-- Witness for C6 (amended): the service that overwrites its input buffer,
met with a copy of the elements and met with the array itself; the elements
are released once in both cases. -/
theorem input_array_preserved_witness :
    (Fits copyingJvm (outcomeOf .protect scribblingOS hello) ∧
      (run .protect scribblingOS copyingJvm World.init hello).data = hello) ∧
    (Fits directJvm (outcomeOf .protect scribblingOS hello) ∧
      releases (run .protect scribblingOS directJvm World.init hello).world.trace =
        releases World.init.trace + 1 ∧
      (run .protect scribblingOS directJvm World.init hello).world.pinned =
        World.init.pinned) :=
  ⟨⟨by decide,
      (input_array_preserved .protect scribblingOS copyingJvm World.init hello
        (by decide)).2.2.2.2.1 (Or.inl rfl)⟩,
    ⟨by decide,
      (input_array_preserved .protect scribblingOS directJvm World.init hello
        (by decide)).2.1,
      (input_array_preserved .protect scribblingOS directJvm World.init hello
        (by decide)).2.2.2.1⟩⟩

/-- C1, as stated, fails, in two ways. A service whose blobs are 2^31 bytes
longer than the plaintext is inverted by its unprotect call on every
plaintext, yet `protect` of the empty array has no defined behaviour (the blob
size is not a non-negative `jsize`). And with a blob of 2^31 - 1 bytes, a JVM
that constructs arrays of up to 2^31 - 3 elements returns `NULL` from
`NewByteArray`, and `protect` of hello has no defined behaviour either. In both
cases `unprotect(protect(p))` does not succeed. -/
theorem oversized_blob_breaks_sealing :
    ((∀ p : List Byte, InvertsOn bigOS p) ∧
      (protect bigOS copyingJvm World.init JByteArray.empty).ret = .undefined ∧
      roundTrip bigOS copyingJvm copyingJvm World.init JByteArray.empty ≠
        some JByteArray.empty) ∧
    ((∀ p : List Byte, InvertsOn (headerOS (2 ^ 31 - 6)) p) ∧
      (protectOutcome (headerOS (2 ^ 31 - 6)) hello).dataOut.cbData < 2 ^ 31 ∧
      (protect (headerOS (2 ^ 31 - 6)) limitedJvm World.init hello).ret = .undefined ∧
      roundTrip (headerOS (2 ^ 31 - 6)) limitedJvm limitedJvm World.init hello ≠
        some hello) :=
  ⟨⟨fun p => headerOS_inverts (2 ^ 31) p, by decide, by decide⟩,
    ⟨fun p => headerOS_inverts (2 ^ 31 - 6) p, by decide, by decide, by decide⟩⟩

/-- C1, amended. For every byte sequence `p` (a Java array of any length and
any byte values): if in the current context `CryptUnprotectData` inverts
`CryptProtectData` on `p`, the blob the service returns for `p` is shorter
than 2^31 bytes, and `NewByteArray` constructs the two result arrays (the blob
in `protect`, the plaintext in `unprotect`), then `unprotect(protect(p))`
succeeds and returns an array equal to `p`. -/
theorem sealed_then_unsealed (os : Dpapi) (jvm1 jvm2 : Jvm) (w : World) (p : JByteArray)
    (hinv : InvertsOn os p.elems)
    (hfit : (protectOutcome os p).dataOut.cbData < 2 ^ 31)
    (hnew1 : jvm1.constructs (protectOutcome os p).dataOut.cbData = true)
    (hnew2 : jvm2.constructs p.elems.length = true) :
    roundTrip os jvm1 jvm2 w p = some p :=
  roundTrip_of_inverts os jvm1 jvm2 w p hinv hfit hnew1 hnew2

/-- Witness for C1 (amended): hello with a header of three bytes. -/
theorem sealed_then_unsealed_witness :
    InvertsOn (headerOS 3) hello.elems ∧
    (protectOutcome (headerOS 3) hello).dataOut.cbData < 2 ^ 31 ∧
    limitedJvm.constructs (protectOutcome (headerOS 3) hello).dataOut.cbData = true ∧
    directJvm.constructs hello.elems.length = true ∧
    (protect (headerOS 3) limitedJvm World.init hello).ret =
      .returned (some ⟨[0, 0, 0, 0x68, 0x65, 0x6C, 0x6C, 0x6F], by decide⟩) ∧
    roundTrip (headerOS 3) limitedJvm directJvm World.init hello = some hello :=
  ⟨headerOS_inverts 3 _, by decide, by decide, by decide, by decide,
    sealed_then_unsealed (headerOS 3) limitedJvm directJvm World.init hello
      (headerOS_inverts 3 _) (by decide) (by decide) (by decide)⟩

/-- C7, as stated, fails: a service that round-trips every non-empty buffer
(with a blob as long as the plaintext) and rejects the empty input makes
`protect` of the empty array return `NULL`; the native code has no special
case for the empty input, and `unprotect(protect(empty))` does not succeed.
Nor does it succeed with a service that round-trips the empty buffer when
`NewByteArray` cannot construct the result array, or when the blob of the
empty plaintext has 2^31 bytes. -/
theorem empty_input_not_special_cased :
    ((∀ p : List Byte, p ≠ [] → InvertsOn pickyOS p) ∧
      (protectOutcome pickyOS JByteArray.empty).ok = false ∧
      (protect pickyOS copyingJvm World.init JByteArray.empty).ret = .returned none ∧
      roundTrip pickyOS copyingJvm copyingJvm World.init JByteArray.empty ≠
        some JByteArray.empty) ∧
    ((∀ p : List Byte, InvertsOn echoOS p) ∧
      roundTrip echoOS exhaustedJvm exhaustedJvm World.init JByteArray.empty ≠
        some JByteArray.empty) ∧
    ((∀ p : List Byte, InvertsOn (headerOS (2 ^ 31)) p) ∧
      roundTrip (headerOS (2 ^ 31)) copyingJvm copyingJvm World.init JByteArray.empty ≠
        some JByteArray.empty) :=
  ⟨⟨pickyOS_inverts, by decide, by decide, by decide⟩,
    ⟨echoOS_inverts, by decide⟩,
    ⟨fun p => headerOS_inverts (2 ^ 31) p, by decide⟩⟩

/-- C7, amended. The empty plaintext is passed to the service like any other,
as an input buffer of length 0. It round-trips to the empty plaintext for
every service that round-trips the empty buffer itself, with a blob shorter
than 2^31 bytes, when `NewByteArray` constructs the two result arrays (the
blob in `protect`, the empty array in `unprotect`); where the service rejects
the empty buffer, `protect` returns `NULL` and there is no round trip. -/
theorem empty_round_trip (os : Dpapi) (jvm1 jvm2 : Jvm) (w : World) :
    osCalls (protect os jvm1 w JByteArray.empty).world.trace =
      osCalls w.trace ++
        [Event.cryptProtectData 0 [] (some "OsKeyLocker") false false false 0] ∧
    (InvertsOn os [] → (protectOutcome os JByteArray.empty).dataOut.cbData < 2 ^ 31 →
      jvm1.constructs (protectOutcome os JByteArray.empty).dataOut.cbData = true →
      jvm2.constructs 0 = true →
      roundTrip os jvm1 jvm2 w JByteArray.empty = some JByteArray.empty) ∧
    ((protectOutcome os JByteArray.empty).ok = false →
      (protect os jvm1 w JByteArray.empty).ret = .returned none ∧
        roundTrip os jvm1 jvm2 w JByteArray.empty = none) := by
  refine ⟨?_, ?_, ?_⟩
  · have h := osCalls_run .protect os jvm1 w JByteArray.empty
    rw [serviceCall_protect] at h
    exact h
  · intro hinv hfit hnew1 hnew2
    exact roundTrip_of_inverts os jvm1 jvm2 w JByteArray.empty hinv hfit hnew1 hnew2
  · intro hfail
    have hr := protect_of_fail os jvm1 w JByteArray.empty hfail
    refine ⟨by rw [hr], ?_⟩
    unfold roundTrip
    rw [hr]

/-- Witness for C7 (amended): the echoing service round-trips the empty array;
the service rejecting the empty buffer makes `protect` return `NULL`. -/
theorem empty_round_trip_witness :
    (InvertsOn echoOS [] ∧ (protectOutcome echoOS JByteArray.empty).dataOut.cbData < 2 ^ 31 ∧
      limitedJvm.constructs (protectOutcome echoOS JByteArray.empty).dataOut.cbData = true ∧
      limitedJvm.constructs 0 = true ∧
      roundTrip echoOS limitedJvm limitedJvm World.init JByteArray.empty =
        some JByteArray.empty) ∧
    ((protectOutcome pickyOS JByteArray.empty).ok = false ∧
      (protect pickyOS copyingJvm World.init JByteArray.empty).ret = .returned none ∧
        roundTrip pickyOS copyingJvm copyingJvm World.init JByteArray.empty = none) :=
  ⟨⟨echoOS_inverts [], by decide, by decide, by decide,
      (empty_round_trip echoOS limitedJvm limitedJvm World.init).2.1 (echoOS_inverts [])
        (by decide) (by decide) (by decide)⟩,
    ⟨by decide,
      (empty_round_trip pickyOS copyingJvm copyingJvm World.init).2.2 (by decide)⟩⟩

end OsKeyLocker
